import Mathlib

/-!
Shallow embedding of `ticketline-ws.py` (event scraper with catalog
reconciliation and persistence) together with proofs about the claims of
its specification.

Conventions of the embedding:
* Python strings are Lean `String`s; `s.lower()` is an ASCII-lowering map,
  `in` (substring containment) is `pyIn`, `strip()` is `pyStrip`.
* Python `None`-able DOM accessor results (`get_attribute`, `text_content`)
  are `Option String`; the Python idiom `x or d` on them is `pyOrStr`.
* Python exceptions are values of `PyErr`; code that can raise returns
  `Except PyErr _`.  A `try/except ValueError` is a `match` on that result.
* The external libraries (Playwright DOM layer, `psycopg2` store,
  `datetime.fromisoformat`) are modelled as explicit oracles/parameters,
  while every piece of control flow of the repository itself is translated
  from the source.
-/

namespace Ticketline

/-! ### Python string primitives -/

/-- Characters accepted by Python's `str.strip()` with no arguments. -/
def isPySpace (c : Char) : Bool :=
  c = ' ' ∨ c = '\t' ∨ c = '\n' ∨ c = '\r' ∨ c = '\x0b' ∨ c = '\x0c'

/-- Python `str.strip()` on a character list: drop whitespace from both ends. -/
def pyStripList (l : List Char) : List Char :=
  ((l.dropWhile isPySpace).reverse.dropWhile isPySpace).reverse

/-- Python `str.strip()`. -/
def pyStrip (s : String) : String := ⟨pyStripList s.data⟩

/-- Python `str.lower()` (ASCII case folding in this embedding). -/
def pyLower (s : String) : String := ⟨s.data.map Char.toLower⟩

/-- Boolean contiguous-sublist test on character lists (Python substring `in`). -/
def subListOf : List Char → List Char → Bool
  | n, [] => n.isEmpty
  | n, c :: rest => n.isPrefixOf (c :: rest) || subListOf n rest

/-- Python substring containment `needle in hay`. -/
def pyIn (needle hay : String) : Bool := subListOf needle.data hay.data

/-- Python `x or d` where `x` is an optional string: `None` and `""` are falsy. -/
def pyOrStr (x : Option String) (d : String) : String :=
  match x with
  | none => d
  | some s => if s = "" then d else s

/-- Python `x or y` on two optional strings (used for chained fallbacks). -/
def pyOrOpt (x y : Option String) : Option String :=
  match x with
  | none => y
  | some s => if s = "" then y else some s

/-- Python `s.startswith("/")`. -/
def pyStartsWithSlash (s : String) : Bool :=
  match s.data with
  | [] => false
  | c :: _ => c = '/'

/-! ### Python exceptions and datetimes -/

/-- Exceptions that the modelled code can raise. -/
inductive PyErr where
  | valueError (msg : String)
  | typeError (msg : String)
  deriving DecidableEq, Repr

/-- A Python `datetime` value: naive fields plus an optional UTC offset in
minutes (`tzOffsetMinutes = none` models a naive datetime). -/
structure PyDatetime where
  year : Nat
  month : Nat
  day : Nat
  hour : Nat
  minute : Nat
  second : Nat
  tzOffsetMinutes : Option Int
  deriving DecidableEq, Repr

def digitVal (c : Char) : Nat := c.toNat - '0'.toNat

/-- Scanner for `%Y-` of `strptime`: exactly four digits then a dash. -/
def parseYearDash (l : List Char) : Option (Nat × List Char) :=
  match l with
  | c1 :: c2 :: c3 :: c4 :: '-' :: rest =>
    if c1.isDigit ∧ c2.isDigit ∧ c3.isDigit ∧ c4.isDigit then
      some (1000 * digitVal c1 + 100 * digitVal c2 + 10 * digitVal c3 + digitVal c4, rest)
    else none
  | _ => none

/-- Scanner for `%m-` of `strptime`: one or two digits (greedy, with the
regex backtrack) then a dash. -/
def parseMonthDash (l : List Char) : Option (Nat × List Char) :=
  match l with
  | c1 :: c2 :: c3 :: rest =>
    if c1.isDigit ∧ c2.isDigit ∧ c3 = '-' then
      some (10 * digitVal c1 + digitVal c2, c3 :: rest |>.tail)
    else if c1.isDigit ∧ c2 = '-' then
      some (digitVal c1, c3 :: rest)
    else none
  | [c1, c2] => if c1.isDigit ∧ c2 = '-' then some (digitVal c1, []) else none
  | _ => none

/-- Scanner for the final `%d` of `strptime`: one or two digits ending the
string (anything left over is "unconverted data" and fails). -/
def parseDayEnd (l : List Char) : Option Nat :=
  match l with
  | [c1] => if c1.isDigit then some (digitVal c1) else none
  | [c1, c2] => if c1.isDigit ∧ c2.isDigit then some (10 * digitVal c1 + digitVal c2) else none
  | _ => none

def isLeapYear (y : Nat) : Bool := (y % 4 = 0 ∧ y % 100 ≠ 0) ∨ y % 400 = 0

def daysInMonth (y m : Nat) : Nat :=
  if m = 2 then (if isLeapYear y then 29 else 28)
  else if m = 4 ∨ m = 6 ∨ m = 9 ∨ m = 11 then 30
  else 31

/-- The Python library call `datetime.strptime(s, "%Y-%m-%d")`: parses a bare
calendar date, producing a naive datetime at midnight, or raises `ValueError`. -/
def strptime_Ymd (s : String) : Except PyErr PyDatetime :=
  match parseYearDash s.data with
  | none => .error (.valueError s)
  | some (y, r1) =>
    match parseMonthDash r1 with
    | none => .error (.valueError s)
    | some (m, r2) =>
      match parseDayEnd r2 with
      | none => .error (.valueError s)
      | some d =>
        if 1 ≤ y ∧ 1 ≤ m ∧ m ≤ 12 ∧ 1 ≤ d ∧ d ≤ daysInMonth y m then
          .ok ⟨y, m, d, 0, 0, 0, none⟩
        else .error (.valueError s)

/-- Python `date_str.replace('Z', '+00:00')` on the character list. -/
def replaceZList : List Char → List Char
  | [] => []
  | c :: rest =>
    if c = 'Z' then '+' :: '0' :: '0' :: ':' :: '0' :: '0' :: replaceZList rest
    else c :: replaceZList rest

/-- Python `date_str.replace('Z', '+00:00')`. -/
def pyReplaceZ (s : String) : String := ⟨replaceZList s.data⟩

/-- Body of `parse_date_to_offset_datetime` before the `except ValueError`
handler.  `fromiso` is the external library call `datetime.fromisoformat`,
modelled as an oracle that returns a datetime or raises `ValueError`. -/
def parse_date_body (fromiso : String → Except PyErr PyDatetime) (s : String) :
    Except PyErr PyDatetime :=
  if pyIn "T" s then fromiso (pyReplaceZ s)
  else
    match strptime_Ymd s with
    | .ok dt => .ok { dt with tzOffsetMinutes := some 0 }
    | .error e => .error e

/-- `parse_date_to_offset_datetime(date_str)` from the source: try the body,
and on `ValueError` fall back to the current instant `now`
(`datetime.now(timezone.utc)`). -/
def parse_date_to_offset_datetime (fromiso : String → Except PyErr PyDatetime)
    (now : PyDatetime) (s : String) : PyDatetime :=
  match parse_date_body fromiso s with
  | .ok dt => dt
  | .error _ => now

/-! ### Rate-limit detection (`check_for_rate_limiting`) -/

/-- The fixed indicator phrases scanned for in the page content. -/
def rate_limit_indicators : List String :=
  ["rate limit", "too many requests", "please wait", "temporarily blocked",
   "access denied", "captcha"]

/-- The inspectable state of a fetched page for `check_for_rate_limiting`:
reading the content or the response status may itself raise. -/
structure RLPage where
  content : Except PyErr String
  responseStatus : Except PyErr (Option Nat)

/-- Body of `check_for_rate_limiting` inside its `try` block: lowercase the
content and scan for indicator phrases, then inspect the HTTP status of the
primary response (`None` response is falsy and skipped). -/
def check_for_rate_limiting_body (p : RLPage) : Except PyErr Bool :=
  match p.content with
  | .error e => .error e
  | .ok c =>
    if rate_limit_indicators.any (fun ind => pyIn ind (pyLower c)) then .ok true
    else
      match p.responseStatus with
      | .error e => .error e
      | .ok (some st) =>
        if st = 429 ∨ st = 403 ∨ st = 503 then .ok true else .ok false
      | .ok none => .ok false

/-- `check_for_rate_limiting(page)`: a blanket `except Exception` turns any
failure of the inspection itself into `False` (treated as not rate limited). -/
def check_for_rate_limiting (p : RLPage) : Bool :=
  match check_for_rate_limiting_body p with
  | .ok b => b
  | .error _ => false

/-! ### The Event record -/

/-- The transient `Event` dataclass produced by the pager / expander. -/
structure Event where
  title : String
  date : String
  location : String
  has_multi_sessions : Bool
  detailsPageUrl : String
  deriving DecidableEq, Repr

/-! ### Catalog matching (`find_matching_standup`, `find_matching_location`) -/

/-- `find_matching_standup(event_title, standups)`: first standup (in list
order) whose lowercased name is a substring of the lowercased title. -/
def find_matching_standup (event_title : String) (standups : List (Nat × String)) :
    Option (Nat × String) :=
  standups.find? (fun s => pyIn (pyLower s.2) (pyLower event_title))

/-- The per-location test of `find_matching_location`: case-insensitive
bidirectional substring containment. -/
def locationMatches (event_location : String) (location_name : String) : Bool :=
  pyIn (pyLower location_name) (pyLower event_location) ||
    pyIn (pyLower event_location) (pyLower location_name)

/-- `find_matching_location(event_location, locations)`: first location (in
list order) matching bidirectionally. -/
def find_matching_location (event_location : String) (locations : List (Nat × String)) :
    Option (Nat × String) :=
  locations.find? (fun l => locationMatches event_location l.2)

/-- Python `location_string.split(" - ", 1)`: characters before and after the
first occurrence of `" - "`, or `none` when the separator is absent. -/
def splitOnceDash : List Char → Option (List Char × List Char)
  | [] => none
  | c :: rest =>
    if [' ', '-', ' '].isPrefixOf (c :: rest) then some ([], (c :: rest).drop 3)
    else
      match splitOnceDash rest with
      | some (a, b) => some (c :: a, b)
      | none => none

/-- The parsing step of `create_location_in_db`: `"Venue - City"` is split on
the first `" - "` into a stripped name and city, otherwise the whole string
(stripped) is the name with no city. -/
def parseLocationString (loc : String) : String × Option String :=
  match splitOnceDash loc.data with
  | some (a, b) => (pyStrip ⟨a⟩, some (pyStrip ⟨b⟩))
  | none => (pyStrip loc, none)

/-! ### The store model

The relational store (`psycopg2` connection) is modelled explicitly:
`cursor.execute` accumulates pending (uncommitted) rows, `conn.commit()`
moves them to the committed lists, and `conn.rollback()` discards them.
Statements executed on the connection see committed plus pending rows. -/

/-- A persisted `event` table row (`name, date, url, location, standup_id,
priority`). -/
structure EventRow where
  name : String
  date : PyDatetime
  url : String
  location : Nat
  standup_id : Nat
  priority : Nat
  deriving DecidableEq, Repr

/-- A persisted `location` table row. -/
structure LocationRow where
  id : Nat
  name : String
  city : Option String
  deriving DecidableEq, Repr

/-- The datastore connection: committed rows, the current transaction's
pending rows, and the id sequence for new locations. -/
structure Conn where
  committedEvents : List EventRow
  pendingEvents : List EventRow
  committedLocations : List LocationRow
  pendingLocations : List LocationRow
  nextLocId : Nat
  deriving DecidableEq, Repr

/-- Rows of the `event` table visible to a statement on this connection
(committed rows plus the transaction's own pending rows). -/
def visibleEvents (c : Conn) : List EventRow :=
  c.committedEvents ++ c.pendingEvents

/-- `conn.commit()`. -/
def commitConn (c : Conn) : Conn :=
  { committedEvents := c.committedEvents ++ c.pendingEvents
    pendingEvents := []
    committedLocations := c.committedLocations ++ c.pendingLocations
    pendingLocations := []
    nextLocId := c.nextLocId }

/-- `conn.rollback()`: all uncommitted work is discarded. -/
def rollbackConn (c : Conn) : Conn :=
  { c with pendingEvents := [], pendingLocations := [] }

/-- Ghost trace of statements executed against the store during a save run. -/
inductive StoreOp where
  | insertLocation (locString : String) (name : String) (result : Option Nat)
  | insertEvent (standupId : Nat) (date : PyDatetime) (locationId : Nat) (inserted : Bool)
  deriving DecidableEq, Repr

/-- `create_location_in_db(location_string, cursor, conn)`: parse the string,
insert a row (`RETURNING id`) and commit on success; on a store error
(injected through the `storeFail` oracle) roll the transaction back and
return `None`. -/
def create_location_in_db (storeFail : String → Bool) (location_string : String)
    (c : Conn) : Conn × Option (Nat × String) :=
  let nameCity := parseLocationString location_string
  if storeFail nameCity.1 then (rollbackConn c, none)
  else
    let lid := c.nextLocId
    let c' := { c with
      pendingLocations := c.pendingLocations ++ [⟨lid, nameCity.1, nameCity.2⟩]
      nextLocId := lid + 1 }
    (commitConn c', some (lid, nameCity.1))

/-- Does inserting `(sid, d)` hit the `(standup_id, date)` unique constraint? -/
def eventKeyConflict (c : Conn) (sid : Nat) (d : PyDatetime) : Bool :=
  (visibleEvents c).any (fun r => r.standup_id = sid ∧ r.date = d)

/-- The parameterized `INSERT INTO event ... ON CONFLICT (standup_id, date)
DO NOTHING`; the boolean is `cursor.rowcount > 0`. -/
def insertEventOnConflict (c : Conn) (row : EventRow) : Conn × Bool :=
  if eventKeyConflict c row.standup_id row.date then (c, false)
  else ({ c with pendingEvents := c.pendingEvents ++ [row] }, true)

/-- Loop state of `save_events_to_db`: the connection, the in-memory
`locations` list, the three counters, the `unmatched_locations` set and the
ghost statement trace. -/
structure SaveState where
  conn : Conn
  locations : List (Nat × String)
  saved : Nat
  skippedStandup : Nat
  skippedLocation : Nat
  unmatchedLocations : List String
  trace : List StoreOp
  deriving DecidableEq, Repr

/-- Python `set.add` modelled on a duplicate-free list. -/
def addUnmatched (l : List String) (s : String) : List String :=
  if s ∈ l then l else l ++ [s]

/-- The tail of the per-event loop body once a standup id and a location id
have been resolved: parse the date and execute the conflict-suppressed
insert, bumping `saved_count` iff `rowcount > 0`. -/
def persistMatchedEvent (fromiso : String → Except PyErr PyDatetime)
    (now : PyDatetime) (standup_id lid : Nat) (event : Event)
    (st : SaveState) : SaveState :=
  let d := parse_date_to_offset_datetime fromiso now event.date
  let row : EventRow := ⟨event.title, d, event.detailsPageUrl, lid, standup_id, 1⟩
  let res := insertEventOnConflict st.conn row
  { st with
    conn := res.1
    saved := if res.2 then st.saved + 1 else st.saved
    trace := st.trace ++ [.insertEvent standup_id d lid res.2] }

/-- One iteration of the `for event in events` loop of `save_events_to_db`. -/
def processEvent (standups : List (Nat × String)) (storeFail : String → Bool)
    (fromiso : String → Except PyErr PyDatetime) (now : PyDatetime)
    (st : SaveState) (event : Event) : SaveState :=
  match find_matching_standup event.title standups with
  | none => { st with skippedStandup := st.skippedStandup + 1 }
  | some (standup_id, _standup_name) =>
    match find_matching_location event.location st.locations with
    | some (lid, _lname) => persistMatchedEvent fromiso now standup_id lid event st
    | none =>
      match create_location_in_db storeFail event.location st.conn with
      | (c', some (lid, lname)) =>
        let st' := { st with
          conn := c'
          locations := st.locations ++ [(lid, lname)]
          trace := st.trace ++ [.insertLocation event.location lname (some lid)] }
        persistMatchedEvent fromiso now standup_id lid event st'
      | (c', none) =>
        { st with
          conn := c'
          skippedLocation := st.skippedLocation + 1
          unmatchedLocations := addUnmatched st.unmatchedLocations event.location
          trace := st.trace ++
            [.insertLocation event.location (parseLocationString event.location).1 none] }

/-- The initial loop state of `save_events_to_db`: fresh counters, in-memory
locations loaded from the store (`get_locations_from_db` reads committed
rows on a separate connection). -/
def initialSaveState (conn0 : Conn) : SaveState :=
  { conn := conn0
    locations := conn0.committedLocations.map (fun l => (l.id, l.name))
    saved := 0
    skippedStandup := 0
    skippedLocation := 0
    unmatchedLocations := []
    trace := [] }

/-- `save_events_to_db(events, standups)`: early return when there are no
standups; otherwise fold the per-event loop body over the events and finish
with the batch `conn.commit()`. -/
def save_events_to_db (standups : List (Nat × String)) (storeFail : String → Bool)
    (fromiso : String → Except PyErr PyDatetime) (now : PyDatetime)
    (events : List Event) (conn0 : Conn) : SaveState :=
  if standups.isEmpty then initialSaveState conn0
  else
    let final := events.foldl (processEvent standups storeFail fromiso now)
      (initialSaveState conn0)
    { final with conn := commitConn final.conn }

/-! ### The listing pager (`scrape_events_for_month`) -/

def BASE_URL : String := "https://ticketline.sapo.pt"

/-- `BASE_URL + href if href.startswith('/') else href`. -/
def resolveUrl (href : String) : String :=
  if pyStartsWithSlash href then BASE_URL ++ href else href

/-- One `li` of the month listing, as seen through the DOM accessors the
pager uses (absent attributes/text are `none`). -/
structure ListingRow where
  classAttr : Option String
  titleText : Option String
  dateAttr : Option String
  venuesText : Option String
  href : Option String
  deriving DecidableEq, Repr

/-- Extraction of one `Event` from one listing row (loop body of lines
470-487 of the source). -/
def extractListingRow (r : ListingRow) : Event :=
  let classes := pyOrStr r.classAttr ""
  let has_multi := pyIn "has_multiple_sessions" classes
  let title := pyOrStr r.titleText "N/A"
  let date := pyOrStr r.dateAttr "N/A"
  let location := pyOrStr r.venuesText "N/A"
  let href := pyOrStr r.href ""
  ⟨pyStrip title, pyStrip date, pyStrip location, has_multi, resolveUrl href⟩

/-- What the `#eventos` wait produced: a timeout, or the rows of
`#eventos ul.events_list li`. -/
inductive PageContent where
  | containerTimeout
  | rows (rs : List ListingRow)
  deriving Repr

/-- Outcome of fetching one search page. -/
inductive PageLoad where
  | navError
  | loaded (rateLimited : Bool) (content : PageContent)
  deriving Repr

/-- The empty-result sentinel test of lines 463-466: exactly one row and its
`class` attribute equals `"empty"`. -/
def isEmptySentinel (rs : List ListingRow) : Bool :=
  match rs with
  | [r] => r.classAttr = some "empty"
  | _ => false

/-- The `while True` pagination loop of `scrape_events_for_month`, driven by
a deterministic fetch oracle `fetch page_number`.  The loop is partial in
the source (navigation errors and rate limiting retry the same page without
bound), hence the explicit `fuel`; the second component is the ghost list of
page numbers requested.  Navigation error and rate-limit branches `continue`
without advancing `page_number`; a container timeout or the empty sentinel
`break`s the month. -/
def scrapeLoop (fetch : Nat → PageLoad) : Nat → Nat → List Event × List Nat
  | 0, _ => ([], [])
  | fuel + 1, page_number =>
    match fetch page_number with
    | .navError =>
      let r := scrapeLoop fetch fuel page_number
      (r.1, page_number :: r.2)
    | .loaded true _ =>
      let r := scrapeLoop fetch fuel page_number
      (r.1, page_number :: r.2)
    | .loaded false .containerTimeout => ([], [page_number])
    | .loaded false (.rows rs) =>
      if isEmptySentinel rs then ([], [page_number])
      else
        let r := scrapeLoop fetch fuel (page_number + 1)
        (rs.map extractListingRow ++ r.1, page_number :: r.2)

/-- `scrape_events_for_month(page, month, year)`: the pagination loop started
at `page := 1`. -/
def scrape_events_for_month (fetch : Nat → PageLoad) (fuel : Nat) :
    List Event × List Nat :=
  scrapeLoop fetch fuel 1

/-! ### The session expander (`scrape_additional_sessions`) -/

/-- One `li` of the classic `#sessoes ul.sessions_list` (Variant A), through
the DOM accessors the expander uses. -/
structure SessionRowA where
  hasDate : Bool
  dateContent : Option String
  detailsContent : Option String
  venueText : Option String
  districtText : Option String
  href : Option String
  deriving DecidableEq, Repr

/-- One item row of the Variant B available-events container. -/
structure ItemB where
  dateContent : Option String
  dateDataAttr : Option String
  titleText : Option String
  itempropNameText : Option String
  venuesText : Option String
  venueText : Option String
  href : Option String
  deriving DecidableEq, Repr

/-- The `#eventList.available_events` container with its three alternative
nested row selectors. -/
structure AvailContainer where
  eventsListItems : List ItemB
  listEventsListItems : List ItemB
  bareItems : List ItemB
  deriving DecidableEq, Repr

/-- A loaded detail page: the Variant A rows (empty list models
`count() == 0`) and the Variant B container when present. -/
structure DetailPage where
  sessionRows : List SessionRowA
  availableContainer : Option AvailContainer
  deriving DecidableEq, Repr

/-- Outcome of navigating to a detail page. -/
inductive DetailLoad where
  | navError
  | loaded (rateLimited : Bool) (page : DetailPage)
  deriving Repr

/-- Python `pre + x or fallback`, which parses as `(pre + x) or fallback`:
when `x` is `None` the concatenation raises `TypeError` before the `or`
fallback can apply; when the concatenation is non-empty the fallback is
dead. -/
def pyConcatOptOr (pre : String) (x : Option String) (fallback : String) :
    Except PyErr String :=
  match x with
  | none => .error (.typeError "can only concatenate str (not NoneType) to str")
  | some s =>
    let c := pre ++ s
    .ok (if c = "" then fallback else c)

/-- Python `str.strip(" -")`: strip any leading/trailing spaces or dashes. -/
def pyStripDashSpace (s : String) : String :=
  ⟨((s.data.dropWhile (fun c => c = ' ' ∨ c = '-')).reverse.dropWhile
      (fun c => c = ' ' ∨ c = '-')).reverse⟩

/-- Variant A extraction for a single session row (lines 514-535): a row
whose `.date` locator is absent is skipped ("no longer available"); the
title concatenates the parent title with the `.details` content attribute
(raising `TypeError` when that attribute is absent, since `+` binds before
`or`). -/
def extractRowA (parent : Event) (r : SessionRowA) : Except PyErr (Option Event) :=
  if !r.hasDate then .ok none
  else
    let date_attr := pyOrStr r.dateContent ""
    match pyConcatOptOr (parent.title ++ " - ") r.detailsContent parent.title with
    | .error e => .error e
    | .ok title_text =>
      let venue_text := pyOrStr r.venueText ""
      let district_text := pyOrStr r.districtText ""
      let location_str :=
        pyStripDashSpace (pyStrip venue_text ++ " - " ++ pyStrip district_text)
      let href := pyOrStr r.href ""
      .ok (some ⟨pyStrip title_text, pyStrip date_attr, location_str, false,
        resolveUrl href⟩)

/-- The Variant A extraction loop; the first raising row aborts the whole
call (the source has no handler between the loop and the top level). -/
def extractRowsA (parent : Event) : List SessionRowA → Except PyErr (List Event)
  | [] => .ok []
  | r :: rest =>
    match extractRowA parent r with
    | .error e => .error e
    | .ok none => extractRowsA parent rest
    | .ok (some ev) =>
      match extractRowsA parent rest with
      | .error e => .error e
      | .ok evs => .ok (ev :: evs)

/-- Variant B extraction for a single item (lines 549-579): date from the
`content` attribute with `data-date` fallback, rows without either skipped;
title concatenates the parent title with the `.title` text (raising
`TypeError` when that text is `None`, since `+` binds before `or`; the
`itemprop` and bare-title fallbacks are unreachable because the first
concatenation is never empty). -/
def extractItemB (parent : Event) (r : ItemB) : Except PyErr (Option Event) :=
  let date_attr := pyOrStr (pyOrOpt r.dateContent r.dateDataAttr) ""
  if date_attr = "" then .ok none
  else
    match pyConcatOptOr (parent.title ++ " - ") r.titleText parent.title with
    | .error e => .error e
    | .ok title_text =>
      let venue_text := pyOrStr (pyOrOpt r.venuesText r.venueText) ""
      let href := pyOrStr r.href ""
      .ok (some ⟨pyStrip title_text, pyStrip date_attr, pyStrip venue_text, false,
        resolveUrl href⟩)

/-- The Variant B extraction loop. -/
def extractItemsB (parent : Event) : List ItemB → Except PyErr (List Event)
  | [] => .ok []
  | r :: rest =>
    match extractItemB parent r with
    | .error e => .error e
    | .ok none => extractItemsB parent rest
    | .ok (some ev) =>
      match extractItemsB parent rest with
      | .error e => .error e
      | .ok evs => .ok (ev :: evs)

/-- The nested-selector fallback of lines 543-547: `ul.events_list li`, then
`ul.list.events_list li`, then bare `li`. -/
def chosenItems (c : AvailContainer) : List ItemB :=
  if c.eventsListItems ≠ [] then c.eventsListItems
  else if c.listEventsListItems ≠ [] then c.listEventsListItems
  else c.bareItems

/-- `scrape_additional_sessions(page, event)`: navigation failure and
rate-limiting return the empty list; otherwise Variant A is used iff its
session rows are non-empty, else Variant B iff its container is present,
else the empty list. -/
def scrape_additional_sessions (load : DetailLoad) (event : Event) :
    Except PyErr (List Event) :=
  match load with
  | .navError => .ok []
  | .loaded true _ => .ok []
  | .loaded false page =>
    if page.sessionRows ≠ [] then extractRowsA event page.sessionRows
    else
      match page.availableContainer with
      | some c => extractItemsB event (chosenItems c)
      | none => .ok []

/-! ### The main multi-session expansion loop (lines 652-658) -/

/-- The guard of line 654: `event.has_multi_sessions and
find_matching_standup(event.title, standups)`. -/
def expandCondition (standups : List (Nat × String)) (e : Event) : Bool :=
  e.has_multi_sessions && (find_matching_standup e.title standups).isSome

/-- The loop building `all_events` from `main_events`: an event satisfying
the guard is replaced by its expansion results, any other event is appended
as-is; an exception from the expander propagates (aborting the run). -/
def processMainEvents (standups : List (Nat × String))
    (expander : Event → Except PyErr (List Event)) :
    List Event → Except PyErr (List Event)
  | [] => .ok []
  | e :: rest =>
    if expandCondition standups e then
      match expander e with
      | .error err => .error err
      | .ok extra =>
        match processMainEvents standups expander rest with
        | .error err => .error err
        | .ok tail => .ok (extra ++ tail)
    else
      match processMainEvents standups expander rest with
      | .error err => .error err
      | .ok tail => .ok (e :: tail)

/-! ### Claim-support definitions (ghost observations over the embedding) -/

/-- Does this fetch outcome terminate the month's pagination (container
timeout, or the empty sentinel)? -/
def pageStops (pl : PageLoad) : Bool :=
  match pl with
  | .loaded false .containerTimeout => true
  | .loaded false (.rows rs) => isEmptySentinel rs
  | _ => false

/-- The listing rows of a successfully loaded page (empty otherwise). -/
def pageRows (pl : PageLoad) : List ListingRow :=
  match pl with
  | .loaded false (.rows rs) => rs
  | _ => []

/-- Is `op` a successful location creation triggered by location string `L`? -/
def successOpFor (L : String) (op : StoreOp) : Bool :=
  match op with
  | .insertLocation ls _ (some _) => ls = L
  | _ => false

/-- Number of successful location creations for location string `L` in the
run so far. -/
def createCount (L : String) (st : SaveState) : Nat :=
  (st.trace.filter (successOpFor L)).length

/-- Invariant tying the creation trace to the in-memory locations list:
every successful creation for a location string `L` is findable again, as
the first match for `L`, in the current in-memory list. -/
def LocCreationInv (st : SaveState) : Prop :=
  ∀ L nm lid, StoreOp.insertLocation L nm (some lid) ∈ st.trace →
    find_matching_location L st.locations = some (lid, nm)

/-! ## Helper lemmas -/

theorem subListOf_iff (n : List Char) : ∀ h : List Char, subListOf n h = true ↔ n <:+: h := by
  intro h
  induction h with
  | nil =>
    simp [subListOf, List.isEmpty_iff]
  | cons c rest ih =>
    rw [List.infix_cons_iff]
    simp [subListOf, ih, List.isPrefixOf_iff_prefix]

theorem pyStripList_contained (l : List Char) : pyStripList l <:+: l := by
  obtain ⟨t, ht⟩ := List.dropWhile_suffix (l := l) isPySpace
  obtain ⟨u, hu⟩ := List.dropWhile_suffix (l := (l.dropWhile isPySpace).reverse) isPySpace
  refine ⟨t, u.reverse, ?_⟩
  have h1 : l.dropWhile isPySpace = pyStripList l ++ u.reverse := by
    have := congrArg List.reverse hu
    simpa [pyStripList] using this.symm
  rw [pyStripList] at h1 ⊢
  rw [List.append_assoc, ← h1, ht]

theorem strptime_Ymd_midnight_naive (s : String) (dt : PyDatetime)
    (h : strptime_Ymd s = .ok dt) :
    dt.hour = 0 ∧ dt.minute = 0 ∧ dt.second = 0 ∧ dt.tzOffsetMinutes = none := by
  unfold strptime_Ymd at h
  repeat' split at h
  all_goals simp_all
  obtain rfl := h
  simp


theorem splitOnceDash_fst_prefix :
    ∀ l a b, splitOnceDash l = some (a, b) → a <+: l := by
  intro l
  induction l with
  | nil => intro a b h; simp [splitOnceDash] at h
  | cons c rest ih =>
    intro a b h
    rw [splitOnceDash] at h
    split at h
    · obtain ⟨rfl, rfl⟩ := by simpa using h
      exact List.nil_prefix
    · revert h
      match hsp : splitOnceDash rest with
      | some (a', b') =>
        intro h
        obtain ⟨rfl, rfl⟩ := by simpa using h
        obtain ⟨t, ht⟩ := ih a' b' hsp
        exact ⟨t, by simp [ht]⟩
      | none => intro h; simp at h

/-- The stripped name parsed out of a location string is an infix of the
original string: `strip` of a prefix of the string. -/
theorem parseLocationString_name_contained (loc : String) :
    (parseLocationString loc).1.data <:+: loc.data := by
  rw [parseLocationString]
  split
  next a b heq =>
    have hpre : a <+: loc.data := splitOnceDash_fst_prefix _ _ _ heq
    exact (pyStripList_contained a).trans hpre.isInfix
  next => exact pyStripList_contained loc.data

/-- A location row freshly created from `loc` matches `loc` itself: its parsed
name, lowercased, is a substring of the lowercased `loc`. -/
theorem parseLocationString_self_match (loc : String) :
    locationMatches loc (parseLocationString loc).1 = true := by
  have hinf : (parseLocationString loc).1.data <:+: loc.data :=
    parseLocationString_name_contained loc
  have hmap := hinf.map Char.toLower
  rw [locationMatches, Bool.or_eq_true, pyIn, pyLower, pyLower]
  exact Or.inl ((subListOf_iff _ _).mpr hmap)


/-! ### Reconciler step characterizations -/

section Reconciler

variable (standups : List (Nat × String)) (storeFail : String → Bool)
variable (fromiso : String → Except PyErr PyDatetime) (now : PyDatetime)

theorem visibleEvents_commitConn (c : Conn) :
    visibleEvents (commitConn c) = visibleEvents c := by
  simp [visibleEvents, commitConn]

theorem find_matching_location_append (L : String) (xs ys : List (Nat × String)) :
    find_matching_location L (xs ++ ys) =
      (find_matching_location L xs).or (find_matching_location L ys) := by
  simp [find_matching_location, List.find?_append]

theorem find_matching_location_mem {L : String} {locs : List (Nat × String)}
    {r : Nat × String} (h : find_matching_location L locs = some r) : r ∈ locs :=
  List.mem_of_find?_eq_some h

theorem processEvent_no_standup {e : Event} (st : SaveState)
    (hs : find_matching_standup e.title standups = none) :
    processEvent standups storeFail fromiso now st e =
      { st with skippedStandup := st.skippedStandup + 1 } := by
  simp [processEvent, hs]

theorem processEvent_loc_match {e : Event} {sid lid : Nat} {snm lnm : String}
    (st : SaveState)
    (hs : find_matching_standup e.title standups = some (sid, snm))
    (hl : find_matching_location e.location st.locations = some (lid, lnm)) :
    processEvent standups storeFail fromiso now st e =
      persistMatchedEvent fromiso now sid lid e st := by
  simp [processEvent, hs, hl]

theorem processEvent_create_success {e : Event} {sid : Nat} {snm : String}
    (st : SaveState)
    (hs : find_matching_standup e.title standups = some (sid, snm))
    (hl : find_matching_location e.location st.locations = none)
    (hf : storeFail (parseLocationString e.location).1 = false) :
    processEvent standups storeFail fromiso now st e =
      persistMatchedEvent fromiso now sid st.conn.nextLocId e
        { st with
          conn := commitConn { st.conn with
            pendingLocations := st.conn.pendingLocations ++
              [⟨st.conn.nextLocId, (parseLocationString e.location).1,
                (parseLocationString e.location).2⟩]
            nextLocId := st.conn.nextLocId + 1 }
          locations := st.locations ++
            [(st.conn.nextLocId, (parseLocationString e.location).1)]
          trace := st.trace ++ [.insertLocation e.location
            (parseLocationString e.location).1 (some st.conn.nextLocId)] } := by
  simp [processEvent, hs, hl, create_location_in_db, hf]

theorem processEvent_create_fail {e : Event} {sid : Nat} {snm : String}
    (st : SaveState)
    (hs : find_matching_standup e.title standups = some (sid, snm))
    (hl : find_matching_location e.location st.locations = none)
    (hf : storeFail (parseLocationString e.location).1 = true) :
    processEvent standups storeFail fromiso now st e =
      { st with
        conn := rollbackConn st.conn
        skippedLocation := st.skippedLocation + 1
        unmatchedLocations := addUnmatched st.unmatchedLocations e.location
        trace := st.trace ++ [.insertLocation e.location
          (parseLocationString e.location).1 none] } := by
  simp [processEvent, hs, hl, create_location_in_db, hf]

theorem persistMatchedEvent_conflict {e : Event} {sid lid : Nat} (st : SaveState)
    (h : eventKeyConflict st.conn sid
      (parse_date_to_offset_datetime fromiso now e.date) = true) :
    persistMatchedEvent fromiso now sid lid e st =
      { st with trace := st.trace ++ [.insertEvent sid
        (parse_date_to_offset_datetime fromiso now e.date) lid false] } := by
  simp [persistMatchedEvent, insertEventOnConflict, h]

theorem persistMatchedEvent_insert {e : Event} {sid lid : Nat} (st : SaveState)
    (h : eventKeyConflict st.conn sid
      (parse_date_to_offset_datetime fromiso now e.date) = false) :
    persistMatchedEvent fromiso now sid lid e st =
      { st with
        conn := { st.conn with pendingEvents := st.conn.pendingEvents ++
          [⟨e.title, parse_date_to_offset_datetime fromiso now e.date,
            e.detailsPageUrl, lid, sid, 1⟩] }
        saved := st.saved + 1
        trace := st.trace ++ [.insertEvent sid
          (parse_date_to_offset_datetime fromiso now e.date) lid true] } := by
  simp [persistMatchedEvent, insertEventOnConflict, h]

theorem persistMatchedEvent_counters (fromiso : String → Except PyErr PyDatetime)
    (now : PyDatetime) (sid lid : Nat) (e : Event) (st : SaveState) :
    (persistMatchedEvent fromiso now sid lid e st).skippedStandup = st.skippedStandup
    ∧ (persistMatchedEvent fromiso now sid lid e st).skippedLocation = st.skippedLocation
    ∧ (persistMatchedEvent fromiso now sid lid e st).locations = st.locations := by
  simp [persistMatchedEvent]

theorem processEvent_skippedStandup (st : SaveState) (e : Event) :
    (processEvent standups storeFail fromiso now st e).skippedStandup =
      if (find_matching_standup e.title standups).isNone then st.skippedStandup + 1
      else st.skippedStandup := by
  cases hs : find_matching_standup e.title standups with
  | none =>
    rw [processEvent_no_standup standups storeFail fromiso now st hs]
    simp
  | some p =>
    obtain ⟨sid, snm⟩ := p
    simp only [Option.isNone_some, Bool.false_eq_true, if_false]
    cases hl : find_matching_location e.location st.locations with
    | some r =>
      obtain ⟨lid, lnm⟩ := r
      rw [processEvent_loc_match standups storeFail fromiso now st hs hl]
      simp [persistMatchedEvent]
    | none =>
      cases hf : storeFail (parseLocationString e.location).1 with
      | false =>
        rw [processEvent_create_success standups storeFail fromiso now st hs hl hf]
        simp [persistMatchedEvent]
      | true =>
        rw [processEvent_create_fail standups storeFail fromiso now st hs hl hf]

theorem saveFold_skippedStandup :
    ∀ (events : List Event) (st : SaveState),
    (events.foldl (processEvent standups storeFail fromiso now) st).skippedStandup =
      st.skippedStandup +
        (events.filter (fun e => (find_matching_standup e.title standups).isNone)).length := by
  intro events
  induction events with
  | nil => intro st; simp
  | cons e rest ih =>
    intro st
    rw [List.foldl_cons, ih, processEvent_skippedStandup standups storeFail fromiso now st e]
    by_cases hn : (find_matching_standup e.title standups).isNone
    · simp [hn]
      omega
    · simp [hn]

theorem processEvent_visible_pres {P : EventRow → Prop} (st : SaveState) (e : Event)
    (hst : ∀ row ∈ visibleEvents st.conn, P row)
    (hPe : ∀ sid nm, find_matching_standup e.title standups = some (sid, nm) →
      ∀ d lid, P ⟨e.title, d, e.detailsPageUrl, lid, sid, 1⟩) :
    ∀ row ∈ visibleEvents ((processEvent standups storeFail fromiso now st e).conn),
      P row := by
  cases hs : find_matching_standup e.title standups with
  | none =>
    rw [processEvent_no_standup standups storeFail fromiso now st hs]
    exact hst
  | some p =>
    obtain ⟨sid, snm⟩ := p
    have hpersist : ∀ (st' : SaveState) (lid : Nat),
        (∀ row ∈ visibleEvents st'.conn, P row) →
        ∀ row ∈ visibleEvents ((persistMatchedEvent fromiso now sid lid e st').conn),
          P row := by
      intro st' lid hst' row hrow
      by_cases hc : eventKeyConflict st'.conn sid
          (parse_date_to_offset_datetime fromiso now e.date) = true
      · rw [persistMatchedEvent_conflict fromiso now st' hc] at hrow
        exact hst' row hrow
      · rw [persistMatchedEvent_insert fromiso now st'
          (Bool.not_eq_true _ ▸ hc)] at hrow
        simp only [visibleEvents, List.append_assoc, List.mem_append] at hrow
        rcases hrow with h | h | h
        · exact hst' row (by simp [visibleEvents, h])
        · exact hst' row (by simp [visibleEvents, h])
        · simp only [List.mem_singleton] at h
          subst h
          exact hPe sid snm hs _ lid
    cases hl : find_matching_location e.location st.locations with
    | some r =>
      obtain ⟨lid, lnm⟩ := r
      rw [processEvent_loc_match standups storeFail fromiso now st hs hl]
      exact hpersist st lid hst
    | none =>
      cases hf : storeFail (parseLocationString e.location).1 with
      | false =>
        rw [processEvent_create_success standups storeFail fromiso now st hs hl hf]
        refine hpersist _ _ ?_
        intro row hrow
        rw [visibleEvents_commitConn] at hrow
        exact hst row (by simpa [visibleEvents] using hrow)
      | true =>
        rw [processEvent_create_fail standups storeFail fromiso now st hs hl hf]
        intro row hrow
        refine hst row ?_
        simp only [rollbackConn, visibleEvents] at hrow ⊢
        simp only [List.append_nil] at hrow
        simp [hrow]

theorem saveFold_visible_pres {P : EventRow → Prop} (EVENTS : List Event)
    (hPE : ∀ e ∈ EVENTS, ∀ sid nm,
      find_matching_standup e.title standups = some (sid, nm) →
      ∀ d lid, P ⟨e.title, d, e.detailsPageUrl, lid, sid, 1⟩) :
    ∀ (events : List Event) (st : SaveState), events ⊆ EVENTS →
    (∀ row ∈ visibleEvents st.conn, P row) →
    ∀ row ∈ visibleEvents
      ((events.foldl (processEvent standups storeFail fromiso now) st).conn), P row := by
  intro events
  induction events with
  | nil => intro st _ hst; simpa using hst
  | cons e rest ih =>
    intro st hsub hst
    rw [List.foldl_cons]
    refine ih _ (fun x hx => hsub (List.mem_cons_of_mem e hx)) ?_
    exact processEvent_visible_pres standups storeFail fromiso now st e hst
      (fun sid nm h d lid => hPE e (hsub (List.mem_cons_self e rest)) sid nm h d lid)

end Reconciler

/-! ### Pager characterization -/

theorem scrapeLoop_stops_at (fetch : Nat → PageLoad) (p : Nat) :
    ∀ (fuel k : Nat), k ≤ p → p < k + fuel →
    (∀ q, k ≤ q → q < p →
      ∃ rs, fetch q = .loaded false (.rows rs) ∧ isEmptySentinel rs = false) →
    pageStops (fetch p) = true →
    scrapeLoop fetch fuel k =
      ((List.range' k (p - k)).flatMap
          (fun q => (pageRows (fetch q)).map extractListingRow),
        List.range' k (p - k + 1)) := by
  intro fuel
  induction fuel with
  | zero =>
    intro k h1 h2 _ _
    omega
  | succ fuel ih =>
    intro k hkp hfuel hmid hstop
    by_cases hk : k = p
    · subst hk
      rw [scrapeLoop]
      revert hstop
      match hf : fetch k with
      | .navError => intro hstop; simp [pageStops] at hstop
      | .loaded true c => intro hstop; simp [pageStops] at hstop
      | .loaded false .containerTimeout =>
        intro _
        simp [Nat.sub_self]
      | .loaded false (.rows rs) =>
        intro hstop
        have hsent : isEmptySentinel rs = true := by simpa [pageStops] using hstop
        simp [hsent, Nat.sub_self]
    · have hklt : k < p := Nat.lt_of_le_of_ne hkp hk
      obtain ⟨rs, hf, hsent⟩ := hmid k le_rfl hklt
      rw [scrapeLoop, hf]
      simp only [hsent, Bool.false_eq_true, if_false]
      rw [ih (k + 1) hklt (by omega) (fun q hq1 hq2 => hmid q (by omega) hq2) hstop]
      have h1 : p - k = (p - (k + 1)) + 1 := by omega
      rw [h1]
      simp [pageRows, hf, List.range'_succ]

/-! ### Expander lemmas -/

theorem extractRowA_multi_false {parent : Event} {r : SessionRowA} {ev : Event}
    (h : extractRowA parent r = .ok (some ev)) : ev.has_multi_sessions = false := by
  unfold extractRowA at h
  split at h
  · simp at h
  · split at h
    · simp at h
    · simp only [Except.ok.injEq, Option.some.injEq] at h
      subst h
      rfl

theorem extractRowsA_multi_false (parent : Event) :
    ∀ (l : List SessionRowA) (evs : List Event),
    extractRowsA parent l = .ok evs → ∀ x ∈ evs, x.has_multi_sessions = false := by
  intro l
  induction l with
  | nil =>
    intro evs h x hx
    simp only [extractRowsA, Except.ok.injEq] at h
    subst h
    simp at hx
  | cons r rest ih =>
    intro evs h x hx
    rw [extractRowsA] at h
    cases hA : extractRowA parent r with
    | error e => rw [hA] at h; simp at h
    | ok o =>
      rw [hA] at h
      cases o with
      | none => exact ih evs h x hx
      | some ev =>
        cases hrest : extractRowsA parent rest with
        | error e => rw [hrest] at h; simp at h
        | ok evs' =>
          rw [hrest] at h
          simp only [Except.ok.injEq] at h
          subst h
          rcases List.mem_cons.mp hx with rfl | hx
          · exact extractRowA_multi_false hA
          · exact ih evs' hrest x hx

theorem extractItemB_multi_false {parent : Event} {r : ItemB} {ev : Event}
    (h : extractItemB parent r = .ok (some ev)) : ev.has_multi_sessions = false := by
  simp only [extractItemB] at h
  split at h
  · simp at h
  · split at h
    · simp at h
    · simp only [Except.ok.injEq, Option.some.injEq] at h
      subst h
      rfl

theorem extractItemsB_multi_false (parent : Event) :
    ∀ (l : List ItemB) (evs : List Event),
    extractItemsB parent l = .ok evs → ∀ x ∈ evs, x.has_multi_sessions = false := by
  intro l
  induction l with
  | nil =>
    intro evs h x hx
    simp only [extractItemsB, Except.ok.injEq] at h
    subst h
    simp at hx
  | cons r rest ih =>
    intro evs h x hx
    rw [extractItemsB] at h
    cases hB : extractItemB parent r with
    | error e => rw [hB] at h; simp at h
    | ok o =>
      rw [hB] at h
      cases o with
      | none => exact ih evs h x hx
      | some ev =>
        cases hrest : extractItemsB parent rest with
        | error e => rw [hrest] at h; simp at h
        | ok evs' =>
          rw [hrest] at h
          simp only [Except.ok.injEq] at h
          subst h
          rcases List.mem_cons.mp hx with rfl | hx
          · exact extractItemB_multi_false hB
          · exact ih evs' hrest x hx

theorem extractItemsB_all_dateless (parent : Event) :
    ∀ items : List ItemB,
    (∀ r ∈ items, pyOrStr (pyOrOpt r.dateContent r.dateDataAttr) "" = "") →
    extractItemsB parent items = .ok [] := by
  intro items
  induction items with
  | nil => intro _; rfl
  | cons r rest ih =>
    intro h
    rw [extractItemsB]
    have hr := h r (List.mem_cons_self r rest)
    rw [extractItemB, hr]
    simp only [if_pos rfl]
    exact ih (fun x hx => h x (List.mem_cons_of_mem r hx))

theorem scrape_additional_sessions_multi_false (load : DetailLoad) (ev : Event)
    (res : List Event) (h : scrape_additional_sessions load ev = .ok res) :
    ∀ x ∈ res, x.has_multi_sessions = false := by
  cases load with
  | navError =>
    simp only [scrape_additional_sessions, Except.ok.injEq] at h
    subst h
    simp
  | loaded rl page =>
    cases rl with
    | true =>
      simp only [scrape_additional_sessions, Except.ok.injEq] at h
      subst h
      simp
    | false =>
      rw [scrape_additional_sessions] at h
      split at h
      · exact extractRowsA_multi_false ev _ res h
      · split at h
        · exact extractItemsB_multi_false ev _ res h
        · simp only [Except.ok.injEq] at h
          subst h
          simp

theorem processMainEvents_members (standups : List (Nat × String))
    (expander : Event → Except PyErr (List Event)) (Q : Event → Prop)
    (hQ : ∀ ev extra, expander ev = .ok extra → ∀ x ∈ extra, Q x) :
    ∀ (events res : List Event),
    processMainEvents standups expander events = .ok res →
    ∀ x ∈ res, Q x ∨ expandCondition standups x = false := by
  intro events
  induction events with
  | nil =>
    intro res h x hx
    simp only [processMainEvents, Except.ok.injEq] at h
    subst h
    simp at hx
  | cons e rest ih =>
    intro res h x hx
    rw [processMainEvents] at h
    by_cases hc : expandCondition standups e = true
    · rw [if_pos hc] at h
      cases hexp : expander e with
      | error err => rw [hexp] at h; simp at h
      | ok extra =>
        rw [hexp] at h
        cases hrest : processMainEvents standups expander rest with
        | error err => rw [hrest] at h; simp at h
        | ok tail =>
          rw [hrest] at h
          simp only [Except.ok.injEq] at h
          subst h
          rcases List.mem_append.mp hx with hxe | hxt
          · exact Or.inl (hQ e extra hexp x hxe)
          · exact ih tail hrest x hxt
    · rw [if_neg hc] at h
      cases hrest : processMainEvents standups expander rest with
      | error err => rw [hrest] at h; simp at h
      | ok tail =>
        rw [hrest] at h
        simp only [Except.ok.injEq] at h
        subst h
        rcases List.mem_cons.mp hx with rfl | hxt
        · refine Or.inr ?_
          revert hc
          cases expandCondition standups x <;> simp
        · exact ih tail hrest x hxt

/-! ### Idempotence lemmas -/

theorem parse_date_now_independent {fromiso : String → Except PyErr PyDatetime}
    {s : String} (h : ∃ d, parse_date_body fromiso s = .ok d)
    (n1 n2 : PyDatetime) :
    parse_date_to_offset_datetime fromiso n1 s =
      parse_date_to_offset_datetime fromiso n2 s := by
  obtain ⟨d, hd⟩ := h
  simp [parse_date_to_offset_datetime, hd]

theorem eventKeyConflict_iff (c : Conn) (sid : Nat) (d : PyDatetime) :
    eventKeyConflict c sid d = true ↔
      ∃ row ∈ visibleEvents c, row.standup_id = sid ∧ row.date = d := by
  simp [eventKeyConflict, List.any_eq_true]

section Idem

variable (standups : List (Nat × String)) (storeFail : String → Bool)
variable (fromiso : String → Except PyErr PyDatetime) (now : PyDatetime)

theorem persistMatchedEvent_establishes_key (sid lid : Nat) (e : Event)
    (st : SaveState) :
    ∃ row ∈ visibleEvents ((persistMatchedEvent fromiso now sid lid e st).conn),
      row.standup_id = sid ∧
      row.date = parse_date_to_offset_datetime fromiso now e.date := by
  by_cases hc : eventKeyConflict st.conn sid
      (parse_date_to_offset_datetime fromiso now e.date) = true
  · rw [persistMatchedEvent_conflict fromiso now st hc]
    exact (eventKeyConflict_iff _ _ _).mp hc
  · rw [persistMatchedEvent_insert fromiso now st (Bool.not_eq_true _ ▸ hc)]
    refine ⟨⟨e.title, parse_date_to_offset_datetime fromiso now e.date,
      e.detailsPageUrl, lid, sid, 1⟩, ?_, rfl, rfl⟩
    simp [visibleEvents]

theorem processEvent_visible_mono (hnf : ∀ n, storeFail n = false)
    (st : SaveState) (e : Event) :
    ∀ row ∈ visibleEvents st.conn,
      row ∈ visibleEvents ((processEvent standups storeFail fromiso now st e).conn) := by
  have hpersist : ∀ (st' : SaveState) (sid lid : Nat),
      ∀ row ∈ visibleEvents st'.conn,
        row ∈ visibleEvents ((persistMatchedEvent fromiso now sid lid e st').conn) := by
    intro st' sid lid row hrow
    by_cases hc : eventKeyConflict st'.conn sid
        (parse_date_to_offset_datetime fromiso now e.date) = true
    · rw [persistMatchedEvent_conflict fromiso now st' hc]
      exact hrow
    · rw [persistMatchedEvent_insert fromiso now st' (Bool.not_eq_true _ ▸ hc)]
      simp only [visibleEvents, List.mem_append] at hrow ⊢
      rcases hrow with h | h
      · exact Or.inl h
      · exact Or.inr (Or.inl h)
  cases hs : find_matching_standup e.title standups with
  | none =>
    rw [processEvent_no_standup standups storeFail fromiso now st hs]
    exact fun row hrow => hrow
  | some p =>
    obtain ⟨sid, snm⟩ := p
    cases hl : find_matching_location e.location st.locations with
    | some r =>
      obtain ⟨lid, lnm⟩ := r
      rw [processEvent_loc_match standups storeFail fromiso now st hs hl]
      exact hpersist st sid lid
    | none =>
      rw [processEvent_create_success standups storeFail fromiso now st hs hl
        (hnf _)]
      intro row hrow
      refine hpersist _ sid _ row ?_
      rw [visibleEvents_commitConn]
      simpa [visibleEvents] using hrow

theorem saveFold_visible_mono (hnf : ∀ n, storeFail n = false) :
    ∀ (events : List Event) (st : SaveState) (row : EventRow),
    row ∈ visibleEvents st.conn →
    row ∈ visibleEvents
      ((events.foldl (processEvent standups storeFail fromiso now) st).conn) := by
  intro events
  induction events with
  | nil => exact fun st row h => h
  | cons e rest ih =>
    intro st row h
    exact ih _ row (processEvent_visible_mono standups storeFail fromiso now hnf st e row h)

theorem saveFold_keys_present (hnf : ∀ n, storeFail n = false) :
    ∀ (events : List Event) (st : SaveState), ∀ e ∈ events, ∀ sid nm,
    find_matching_standup e.title standups = some (sid, nm) →
    ∃ row ∈ visibleEvents
      ((events.foldl (processEvent standups storeFail fromiso now) st).conn),
      row.standup_id = sid ∧
      row.date = parse_date_to_offset_datetime fromiso now e.date := by
  intro events
  induction events with
  | nil => intro st e he; simp at he
  | cons e0 rest ih =>
    intro st e he sid nm hs
    rcases List.mem_cons.mp he with rfl | he'
    · have hkey : ∃ row ∈ visibleEvents
          ((processEvent standups storeFail fromiso now st e).conn),
          row.standup_id = sid ∧
          row.date = parse_date_to_offset_datetime fromiso now e.date := by
        cases hl : find_matching_location e.location st.locations with
        | some r =>
          obtain ⟨lid, lnm⟩ := r
          rw [processEvent_loc_match standups storeFail fromiso now st hs hl]
          exact persistMatchedEvent_establishes_key fromiso now sid lid e st
        | none =>
          rw [processEvent_create_success standups storeFail fromiso now st hs hl
            (hnf _)]
          exact persistMatchedEvent_establishes_key fromiso now sid _ e _
      obtain ⟨row, hrow, hprops⟩ := hkey
      exact ⟨row, saveFold_visible_mono standups storeFail fromiso now hnf rest _ row hrow,
        hprops⟩
    · exact ih _ e he' sid nm hs

theorem saveFold_no_new_saves (hnf : ∀ n, storeFail n = false) :
    ∀ (events : List Event) (st : SaveState),
    (∀ e ∈ events, ∀ sid nm,
      find_matching_standup e.title standups = some (sid, nm) →
      ∃ row ∈ visibleEvents st.conn, row.standup_id = sid ∧
        row.date = parse_date_to_offset_datetime fromiso now e.date) →
    (events.foldl (processEvent standups storeFail fromiso now) st).saved = st.saved
    ∧ visibleEvents
        ((events.foldl (processEvent standups storeFail fromiso now) st).conn) =
      visibleEvents st.conn := by
  intro events
  induction events with
  | nil => exact fun st _ => ⟨rfl, rfl⟩
  | cons e rest ih =>
    intro st hkeys
    have hstep : (processEvent standups storeFail fromiso now st e).saved = st.saved
        ∧ visibleEvents ((processEvent standups storeFail fromiso now st e).conn) =
          visibleEvents st.conn := by
      cases hs : find_matching_standup e.title standups with
      | none =>
        rw [processEvent_no_standup standups storeFail fromiso now st hs]
        exact ⟨rfl, rfl⟩
      | some p =>
        obtain ⟨sid, snm⟩ := p
        have hconf : ∀ st' : SaveState,
            visibleEvents st'.conn = visibleEvents st.conn →
            eventKeyConflict st'.conn sid
              (parse_date_to_offset_datetime fromiso now e.date) = true := by
          intro st' hvis
          rw [eventKeyConflict_iff, hvis]
          exact hkeys e (List.mem_cons_self e rest) sid snm hs
        cases hl : find_matching_location e.location st.locations with
        | some r =>
          obtain ⟨lid, lnm⟩ := r
          rw [processEvent_loc_match standups storeFail fromiso now st hs hl,
            persistMatchedEvent_conflict fromiso now st (hconf st rfl)]
          exact ⟨rfl, rfl⟩
        | none =>
          rw [processEvent_create_success standups storeFail fromiso now st hs hl
            (hnf _)]
          have hvis : visibleEvents (commitConn { st.conn with
              pendingLocations := st.conn.pendingLocations ++
                [⟨st.conn.nextLocId, (parseLocationString e.location).1,
                  (parseLocationString e.location).2⟩]
              nextLocId := st.conn.nextLocId + 1 }) = visibleEvents st.conn := by
            rw [visibleEvents_commitConn]
            rfl
          rw [persistMatchedEvent_conflict fromiso now _ (hconf _ hvis)]
          exact ⟨rfl, hvis⟩
    rw [List.foldl_cons]
    have ihres := ih (processEvent standups storeFail fromiso now st e)
      (by
        intro e' he' sid nm hfind
        obtain ⟨row, hrow, hprops⟩ :=
          hkeys e' (List.mem_cons_of_mem e he') sid nm hfind
        exact ⟨row, by rw [hstep.2]; exact hrow, hprops⟩)
    exact ⟨ihres.1.trans hstep.1, ihres.2.trans hstep.2⟩

end Idem

/-! ### Location-creation uniqueness lemmas -/

theorem find_matching_location_stable {L : String} {locs : List (Nat × String)}
    {r : Nat × String} (h : find_matching_location L locs = some r)
    (tl : List (Nat × String)) :
    find_matching_location L (locs ++ tl) = some r := by
  rw [find_matching_location_append, h]
  rfl

theorem createCount_trace_append (L : String) {st st' : SaveState}
    {ops : List StoreOp} (h : st'.trace = st.trace ++ ops) :
    createCount L st' = createCount L st + (ops.filter (successOpFor L)).length := by
  simp [createCount, h, List.filter_append]

theorem exists_success_of_createCount_pos {L : String} {st : SaveState}
    (h : 0 < createCount L st) :
    ∃ nm lid, StoreOp.insertLocation L nm (some lid) ∈ st.trace := by
  rw [createCount] at h
  obtain ⟨op, hop⟩ := List.exists_mem_of_length_pos h
  obtain ⟨hmem, hsucc⟩ := List.mem_filter.mp hop
  cases op with
  | insertEvent sid d lid ins => simp [successOpFor] at hsucc
  | insertLocation ls nm res =>
    cases res with
    | none => simp [successOpFor] at hsucc
    | some lid =>
      have : ls = L := by simpa [successOpFor] using hsucc
      subst this
      exact ⟨nm, lid, hmem⟩

section LocOnce

variable (standups : List (Nat × String)) (storeFail : String → Bool)
variable (fromiso : String → Except PyErr PyDatetime) (now : PyDatetime)

theorem processEvent_shape (st : SaveState) (e : Event) :
    ((processEvent standups storeFail fromiso now st e).trace = st.trace
      ∧ (processEvent standups storeFail fromiso now st e).locations = st.locations)
    ∨ (∃ sid d lid ins,
        (processEvent standups storeFail fromiso now st e).trace =
          st.trace ++ [StoreOp.insertEvent sid d lid ins]
        ∧ (processEvent standups storeFail fromiso now st e).locations = st.locations)
    ∨ ((processEvent standups storeFail fromiso now st e).trace =
          st.trace ++ [StoreOp.insertLocation e.location
            (parseLocationString e.location).1 none]
        ∧ (processEvent standups storeFail fromiso now st e).locations = st.locations)
    ∨ (find_matching_location e.location st.locations = none
        ∧ ∃ sid d ins,
          (processEvent standups storeFail fromiso now st e).trace =
            st.trace ++ [StoreOp.insertLocation e.location
                (parseLocationString e.location).1 (some st.conn.nextLocId),
              StoreOp.insertEvent sid d st.conn.nextLocId ins]
          ∧ (processEvent standups storeFail fromiso now st e).locations =
            st.locations ++ [(st.conn.nextLocId, (parseLocationString e.location).1)]) := by
  cases hs : find_matching_standup e.title standups with
  | none =>
    rw [processEvent_no_standup standups storeFail fromiso now st hs]
    exact Or.inl ⟨rfl, rfl⟩
  | some p =>
    obtain ⟨sid, snm⟩ := p
    cases hl : find_matching_location e.location st.locations with
    | some r =>
      obtain ⟨lid, lnm⟩ := r
      rw [processEvent_loc_match standups storeFail fromiso now st hs hl]
      refine Or.inr (Or.inl ?_)
      by_cases hc : eventKeyConflict st.conn sid
          (parse_date_to_offset_datetime fromiso now e.date) = true
      · rw [persistMatchedEvent_conflict fromiso now st hc]
        exact ⟨sid, _, lid, false, rfl, rfl⟩
      · rw [persistMatchedEvent_insert fromiso now st (Bool.not_eq_true _ ▸ hc)]
        exact ⟨sid, _, lid, true, rfl, rfl⟩
    | none =>
      cases hfv : storeFail (parseLocationString e.location).1 with
      | true =>
        rw [processEvent_create_fail standups storeFail fromiso now st hs hl hfv]
        exact Or.inr (Or.inr (Or.inl ⟨rfl, rfl⟩))
      | false =>
        rw [processEvent_create_success standups storeFail fromiso now st hs hl hfv]
        refine Or.inr (Or.inr (Or.inr ⟨rfl, ?_⟩))
        set st' : SaveState := { st with
          conn := commitConn { st.conn with
            pendingLocations := st.conn.pendingLocations ++
              [⟨st.conn.nextLocId, (parseLocationString e.location).1,
                (parseLocationString e.location).2⟩]
            nextLocId := st.conn.nextLocId + 1 }
          locations := st.locations ++
            [(st.conn.nextLocId, (parseLocationString e.location).1)]
          trace := st.trace ++ [.insertLocation e.location
            (parseLocationString e.location).1 (some st.conn.nextLocId)] } with hst'
        by_cases hc : eventKeyConflict st'.conn sid
            (parse_date_to_offset_datetime fromiso now e.date) = true
        · rw [persistMatchedEvent_conflict fromiso now st' hc]
          refine ⟨sid, parse_date_to_offset_datetime fromiso now e.date, false, ?_, ?_⟩
          · simp [hst']
          · simp [hst']
        · rw [persistMatchedEvent_insert fromiso now st' (Bool.not_eq_true _ ▸ hc)]
          refine ⟨sid, parse_date_to_offset_datetime fromiso now e.date, true, ?_, ?_⟩
          · simp [hst']
          · simp [hst']

theorem locInv_step {st : SaveState} (e : Event) (hinv : LocCreationInv st) :
    LocCreationInv (processEvent standups storeFail fromiso now st e) := by
  rcases processEvent_shape standups storeFail fromiso now st e with
    ⟨htr, hloc⟩ | ⟨sid, d, lid, ins, htr, hloc⟩ | ⟨htr, hloc⟩ |
    ⟨hl, sid, d, ins, htr, hloc⟩
  · intro L nm lid h
    rw [htr] at h
    rw [hloc]
    exact hinv L nm lid h
  · intro L nm lid' h
    rw [htr] at h
    rw [hloc]
    rcases List.mem_append.mp h with h | h
    · exact hinv L nm lid' h
    · simp at h
  · intro L nm lid' h
    rw [htr] at h
    rw [hloc]
    rcases List.mem_append.mp h with h | h
    · exact hinv L nm lid' h
    · simp at h
  · intro L nm lid' h
    rw [htr] at h
    rw [hloc]
    rcases List.mem_append.mp h with h | h
    · exact find_matching_location_stable (hinv L nm lid' h) _
    · rcases List.mem_cons.mp h with heq | h
      · obtain ⟨rfl, rfl, rfl⟩ : L = e.location
            ∧ nm = (parseLocationString e.location).1
            ∧ lid' = st.conn.nextLocId := by
          cases heq
          exact ⟨rfl, rfl, rfl⟩
        rw [find_matching_location_append, hl]
        have hm := parseLocationString_self_match e.location
        simp [find_matching_location, hm]
      · simp at h

theorem createCount_step_le {st : SaveState} (e : Event) (L : String)
    (hinv : LocCreationInv st) (hle : createCount L st ≤ 1) :
    createCount L (processEvent standups storeFail fromiso now st e) ≤ 1 := by
  rcases processEvent_shape standups storeFail fromiso now st e with
    ⟨htr, hloc⟩ | ⟨sid, d, lid, ins, htr, hloc⟩ | ⟨htr, hloc⟩ |
    ⟨hl, sid, d, ins, htr, hloc⟩
  · rw [createCount, htr]
    exact hle
  · rw [createCount_trace_append L htr]
    simpa [successOpFor] using hle
  · rw [createCount_trace_append L htr]
    simpa [successOpFor] using hle
  · rw [createCount_trace_append L htr]
    by_cases hLe : e.location = L
    · subst hLe
      have hzero : createCount e.location st = 0 := by
        by_contra hne
        obtain ⟨nm, lid', hmem⟩ := exists_success_of_createCount_pos
          (Nat.pos_of_ne_zero hne)
        rw [hinv e.location nm lid' hmem] at hl
        cases hl
      rw [hzero]
      simp [successOpFor]
    · have : (([StoreOp.insertLocation e.location
          (parseLocationString e.location).1 (some st.conn.nextLocId),
          StoreOp.insertEvent sid d st.conn.nextLocId ins]).filter
            (successOpFor L)).length = 0 := by
        simp [successOpFor, hLe]
      rw [this]
      simpa using hle

theorem saveFold_create_once :
    ∀ (events : List Event) (st : SaveState), LocCreationInv st →
    (∀ L, createCount L st ≤ 1) →
    LocCreationInv (events.foldl (processEvent standups storeFail fromiso now) st)
    ∧ ∀ L, createCount L
        (events.foldl (processEvent standups storeFail fromiso now) st) ≤ 1 := by
  intro events
  induction events with
  | nil => exact fun st hinv hle => ⟨hinv, hle⟩
  | cons e rest ih =>
    intro st hinv hle
    exact ih _ (locInv_step standups storeFail fromiso now e hinv)
      (fun L => createCount_step_le standups storeFail fromiso now e L hinv (hle L))

theorem processEvent_locations_grow (st : SaveState) (e : Event) :
    ∃ tl, (processEvent standups storeFail fromiso now st e).locations =
      st.locations ++ tl := by
  rcases processEvent_shape standups storeFail fromiso now st e with
    ⟨_, hloc⟩ | ⟨_, _, _, _, _, hloc⟩ | ⟨_, hloc⟩ | ⟨_, _, _, _, _, hloc⟩
  · exact ⟨[], by simp [hloc]⟩
  · exact ⟨[], by simp [hloc]⟩
  · exact ⟨[], by simp [hloc]⟩
  · exact ⟨_, by rw [hloc]⟩

theorem saveFold_locations_grow :
    ∀ (events : List Event) (st : SaveState),
    ∃ tl, (events.foldl (processEvent standups storeFail fromiso now) st).locations =
      st.locations ++ tl := by
  intro events
  induction events with
  | nil => exact fun st => ⟨[], by simp⟩
  | cons e rest ih =>
    intro st
    obtain ⟨t1, h1⟩ := processEvent_locations_grow standups storeFail fromiso now st e
    obtain ⟨t2, h2⟩ := ih (processEvent standups storeFail fromiso now st e)
    exact ⟨t1 ++ t2, by rw [List.foldl_cons, h2, h1, List.append_assoc]⟩

end LocOnce

/-! ## Claims -/

/-- C1: an event is persisted only if some standup's lowercased name is a
substring of the event's lowercased title: the matcher returns the first
such standup in the canonical ordering (and `none` exactly when no standup
matches); every event row visible after a save run either predates the run
or carries the standup id returned by the matcher for some input event
(with the required containment); and an event with no matching standup is
counted in `skipped_standup_count` rather than erroring (the run is a total
function). -/
theorem C1_standup_matching_gates_persistence
    (standups : List (Nat × String)) (storeFail : String → Bool)
    (fromiso : String → Except PyErr PyDatetime) (now : PyDatetime)
    (events : List Event) (conn0 : Conn) (title : String) :
    (∀ sid nm, find_matching_standup title standups = some (sid, nm) →
      pyIn (pyLower nm) (pyLower title) = true
      ∧ ∃ pre post, standups = pre ++ (sid, nm) :: post
          ∧ ∀ q ∈ pre, pyIn (pyLower q.2) (pyLower title) = false)
    ∧ (find_matching_standup title standups = none ↔
        ∀ q ∈ standups, pyIn (pyLower q.2) (pyLower title) = false)
    ∧ (∀ row ∈ visibleEvents
        (save_events_to_db standups storeFail fromiso now events conn0).conn,
        row ∈ visibleEvents conn0
        ∨ ∃ e ∈ events, ∃ nm,
            find_matching_standup e.title standups = some (row.standup_id, nm)
            ∧ pyIn (pyLower nm) (pyLower e.title) = true)
    ∧ (standups ≠ [] →
        (save_events_to_db standups storeFail fromiso now events conn0).skippedStandup =
          (events.filter
            (fun e => (find_matching_standup e.title standups).isNone)).length) := by
  refine ⟨?_, ?_, ?_, ?_⟩
  · intro sid nm h
    rw [find_matching_standup, List.find?_eq_some] at h
    obtain ⟨hp, pre, post, heq, hpre⟩ := h
    refine ⟨by simpa using hp, pre, post, heq, ?_⟩
    intro q hq
    simpa using hpre q hq
  · rw [find_matching_standup, List.find?_eq_none]
    constructor
    · intro h q hq
      simpa using h q hq
    · intro h q hq
      simpa using h q hq
  · by_cases hemp : standups.isEmpty
    · simp only [save_events_to_db, hemp, if_true]
      intro row hrow
      exact Or.inl hrow
    · simp only [save_events_to_db, hemp, Bool.false_eq_true, if_false]
      intro row hrow
      rw [visibleEvents_commitConn] at hrow
      refine saveFold_visible_pres standups storeFail fromiso now
        (P := fun row => row ∈ visibleEvents conn0
          ∨ ∃ e ∈ events, ∃ nm,
              find_matching_standup e.title standups = some (row.standup_id, nm)
              ∧ pyIn (pyLower nm) (pyLower e.title) = true)
        events ?_ events (initialSaveState conn0) (fun x hx => hx) ?_ row hrow
      · intro e he sid nm hfind d lid
        refine Or.inr ⟨e, he, nm, hfind, ?_⟩
        have := List.find?_some hfind
        simpa using this
      · intro r hr
        exact Or.inl hr
  · intro hne
    have hemp : standups.isEmpty = false := by
      cases standups with
      | nil => exact absurd rfl hne
      | cons a l => rfl
    simp only [save_events_to_db, hemp, Bool.false_eq_true, if_false]
    rw [saveFold_skippedStandup]
    simp [initialSaveState]

/-- Witness for C1 at concrete inputs: a single event whose title matches no
standup is skipped and counted. -/
theorem C1_standup_matching_witness :
    (save_events_to_db [(1, "ana")] (fun _ => false)
        (fun t => .error (.valueError t)) ⟨2025, 1, 1, 0, 0, 0, some 0⟩
        [⟨"zzz", "2025-01-01", "v", false, "u"⟩] ⟨[], [], [], [], 0⟩).skippedStandup =
      (([⟨"zzz", "2025-01-01", "v", false, "u"⟩] : List Event).filter
        (fun e => (find_matching_standup e.title [(1, "ana")]).isNone)).length :=
  (C1_standup_matching_gates_persistence [(1, "ana")] (fun _ => false)
    (fun t => .error (.valueError t)) ⟨2025, 1, 1, 0, 0, 0, some 0⟩
    [⟨"zzz", "2025-01-01", "v", false, "u"⟩] ⟨[], [], [], [], 0⟩ "t").2.2.2
    (by decide)

/-- C5: pagination for a month terminates exactly at the first page `p` whose
load either times out waiting for the `#eventos` container or yields exactly
one row whose class attribute is the `"empty"` marker (`pageStops`): the
emitted events are exactly the extracted rows of the pages strictly before
`p` (so the stopping page contributes zero events), the requested pages are
exactly `1..p` (no higher page number is requested), and in particular if
page 1 stops the pager emits zero events and requests only page 1. -/
theorem C5_pagination_termination (fetch : Nat → PageLoad) (p fuel : Nat)
    (hp : 1 ≤ p) (hfuel : p < 1 + fuel)
    (hmid : ∀ q, 1 ≤ q → q < p →
      ∃ rs, fetch q = .loaded false (.rows rs) ∧ isEmptySentinel rs = false)
    (hstop : pageStops (fetch p) = true) :
    scrape_events_for_month fetch fuel =
      ((List.range' 1 (p - 1)).flatMap
          (fun q => (pageRows (fetch q)).map extractListingRow),
        List.range' 1 p)
    ∧ (∀ q ∈ (scrape_events_for_month fetch fuel).2, q ≤ p)
    ∧ (p = 1 → scrape_events_for_month fetch fuel = ([], [1])) := by
  have h := scrapeLoop_stops_at fetch p fuel 1 hp hfuel hmid hstop
  have hp1 : p - 1 + 1 = p := by omega
  rw [scrape_events_for_month, h, hp1]
  refine ⟨rfl, ?_, ?_⟩
  · intro q hq
    simp only [List.mem_range'] at hq
    obtain ⟨i, hi, rfl⟩ := hq
    omega
  · intro hpeq
    subst hpeq
    simp

/-- Witness for C5 at a concrete month: page 1 holds one ordinary row,
page 2 and beyond time out; the pager emits that one event and requests
exactly pages 1 and 2. -/
theorem C5_pagination_witness :
    scrape_events_for_month
      (fun q => if q = 1 then
          .loaded false (.rows [⟨none, some "Show", some "2025-11-07", some "Venida", some "/e"⟩])
        else .loaded false .containerTimeout) 5 =
      ([⟨"Show", "2025-11-07", "Venida", false, "https://ticketline.sapo.pt/e"⟩], [1, 2]) := by
  have h := (C5_pagination_termination
    (fun q => if q = 1 then
        .loaded false (.rows [⟨none, some "Show", some "2025-11-07", some "Venida", some "/e"⟩])
      else .loaded false .containerTimeout) 2 5 (by omega) (by omega)
    (fun q hq1 hq2 => by
      have : q = 1 := by omega
      subst this
      exact ⟨[⟨none, some "Show", some "2025-11-07", some "Venida", some "/e"⟩], rfl,
        by decide⟩)
    (by decide)).1
  rw [h]
  decide

/-- C6: expansion is invoked only for events whose `has_multi_sessions` flag
is true and whose title matches some canonical standup (the result of the
main loop depends only on the expander's values at such events); every
sub-event the expander produces has `has_multi_sessions = false`; and an
expanded parent event never appears in the final set passed to persistence
(its expansion results replace it). -/
theorem C6_expansion_guard_and_replacement (standups : List (Nat × String))
    (mainEvents : List Event) :
    (∀ exp1 exp2 : Event → Except PyErr (List Event),
      (∀ e ∈ mainEvents, expandCondition standups e = true → exp1 e = exp2 e) →
      processMainEvents standups exp1 mainEvents =
        processMainEvents standups exp2 mainEvents)
    ∧ (∀ (load : DetailLoad) (ev : Event) (res : List Event),
        scrape_additional_sessions load ev = .ok res →
        ∀ x ∈ res, x.has_multi_sessions = false)
    ∧ (∀ (detailOf : Event → DetailLoad) (res : List Event) (p : Event),
        processMainEvents standups
          (fun e => scrape_additional_sessions (detailOf e) e) mainEvents = .ok res →
        expandCondition standups p = true → p ∉ res) := by
  refine ⟨?_, ?_, ?_⟩
  · intro exp1 exp2 hagree
    induction mainEvents with
    | nil => rfl
    | cons e rest ih =>
      rw [processMainEvents, processMainEvents]
      have ihrest := ih (fun x hx hc => hagree x (List.mem_cons_of_mem e hx) hc)
      by_cases hc : expandCondition standups e = true
      · rw [if_pos hc, if_pos hc, hagree e (List.mem_cons_self e rest) hc, ihrest]
      · rw [if_neg hc, if_neg hc, ihrest]
  · exact scrape_additional_sessions_multi_false
  · intro detailOf res p hrun hc hmem
    have := processMainEvents_members standups
      (fun e => scrape_additional_sessions (detailOf e) e)
      (fun x => x.has_multi_sessions = false)
      (fun ev extra hexp x hx => scrape_additional_sessions_multi_false _ _ _ hexp x hx)
      mainEvents res hrun p hmem
    rcases this with hfalse | hcfalse
    · rw [expandCondition, hfalse] at hc
      simp at hc
    · rw [hcfalse] at hc
      cases hc
/-- Witness for C6 at concrete inputs: a flagged, standup-matching event is
expanded (to the empty list here) and does not itself appear in the final
set. -/
theorem C6_expansion_witness :
    processMainEvents [(1, "a")]
      (fun e => scrape_additional_sessions (.loaded false ⟨[], none⟩) e)
      [⟨"abc", "d", "l", true, "u"⟩] = .ok []
    ∧ (⟨"abc", "d", "l", true, "u"⟩ : Event) ∉ ([] : List Event) := by
  refine ⟨rfl, ?_⟩
  exact (C6_expansion_guard_and_replacement [(1, "a")]
      [⟨"abc", "d", "l", true, "u"⟩]).2.2
    (fun _ => .loaded false ⟨[], none⟩) [] ⟨"abc", "d", "l", true, "u"⟩ rfl (by decide)

/-- C8: the expander tries the two detail-page layouts in a fixed order with
first match wins: when the Variant A session rows are absent, the result is
exactly the Variant B extraction of the available-events container (and `[]`
when that container is absent too); when Variant A rows are present, the
result is exactly the Variant A extraction (the container is never
consulted); and a container whose chosen rows all lack a date yields the
empty expansion. -/
theorem C8_variant_selection (ev : Event) (page : DetailPage) :
    (page.sessionRows = [] → ∀ c, page.availableContainer = some c →
      scrape_additional_sessions (.loaded false page) ev =
        extractItemsB ev (chosenItems c))
    ∧ (page.sessionRows = [] → page.availableContainer = none →
      scrape_additional_sessions (.loaded false page) ev = .ok [])
    ∧ (page.sessionRows ≠ [] →
      scrape_additional_sessions (.loaded false page) ev =
        extractRowsA ev page.sessionRows)
    ∧ (∀ items : List ItemB,
        (∀ r ∈ items, pyOrStr (pyOrOpt r.dateContent r.dateDataAttr) "" = "") →
        extractItemsB ev items = .ok []) := by
  refine ⟨?_, ?_, ?_, extractItemsB_all_dateless ev⟩
  · intro h1 c h2
    simp [scrape_additional_sessions, h1, h2]
  · intro h1 h2
    simp [scrape_additional_sessions, h1, h2]
  · intro h1
    simp [scrape_additional_sessions, h1]

/-- Witness for C8 at a concrete detail page exposing only Variant B's
container with one dated item. -/
theorem C8_variant_selection_witness :
    scrape_additional_sessions
      (.loaded false ⟨[], some ⟨[⟨some "2025-11-07T20:00", none, some "Sess", none,
        some "V", none, some "/x"⟩], [], []⟩⟩)
      ⟨"P", "d", "l", true, "u"⟩ =
      .ok [⟨"P - Sess", "2025-11-07T20:00", "V", false,
        "https://ticketline.sapo.pt/x"⟩] := by
  have h := (C8_variant_selection ⟨"P", "d", "l", true, "u"⟩
      ⟨[], some ⟨[⟨some "2025-11-07T20:00", none, some "Sess", none,
        some "V", none, some "/x"⟩], [], []⟩⟩).1 rfl
      ⟨[⟨some "2025-11-07T20:00", none, some "Sess", none,
        some "V", none, some "/x"⟩], [], []⟩ rfl
  rw [h]
  rfl

/-- C9 (refuted, code bug): an absent expected field on a session row does
surface as an error.  Because `+` binds before `or`, a Variant A row whose
`.details` `content` attribute is absent (and likewise a Variant B item
whose `.title` text is `None`) makes the expander raise `TypeError`, which
no handler catches, instead of returning a list; the dead `or`-fallbacks in
the source show the intended behavior was to fall back to the parent
title. -/
theorem C9_missing_field_raises_typeerror :
    scrape_additional_sessions
      (.loaded false ⟨[⟨true, some "2025-11-07T21:00", none, some "Venida",
        some "Lisboa", some "/s"⟩], none⟩)
      ⟨"Fulano", "2025-11-07", "Venida - Lisboa", true, "u"⟩ =
      .error (.typeError "can only concatenate str (not NoneType) to str")
    ∧ scrape_additional_sessions
      (.loaded false ⟨[], some ⟨[⟨some "2025-11-07", none, none, some "name",
        some "V", none, some "/x"⟩], [], []⟩⟩)
      ⟨"Fulano", "2025-11-07", "Venida - Lisboa", true, "u"⟩ =
      .error (.typeError "can only concatenate str (not NoneType) to str") :=
  ⟨rfl, rfl⟩

/-- C3 (amended): when creating a new canonical location fails with a store
error, exactly that one event is skipped and counted (one creation attempt,
no retry, `saved` untouched), the failure is never fatal (the loop continues
with the remaining events) — but the accompanying `conn.rollback()` discards
every still-uncommitted insert of the transaction, so the persistence
effects of earlier events in the run are preserved only if they were
already committed; committed state is unchanged. -/
theorem C3_location_create_failure_skips (standups : List (Nat × String))
    (storeFail : String → Bool) (fromiso : String → Except PyErr PyDatetime)
    (now : PyDatetime) (st : SaveState) (e : Event) (rest : List Event)
    (sid : Nat) (snm : String)
    (hs : find_matching_standup e.title standups = some (sid, snm))
    (hl : find_matching_location e.location st.locations = none)
    (hf : storeFail (parseLocationString e.location).1 = true) :
    processEvent standups storeFail fromiso now st e =
      { st with
        conn := rollbackConn st.conn
        skippedLocation := st.skippedLocation + 1
        unmatchedLocations := addUnmatched st.unmatchedLocations e.location
        trace := st.trace ++ [.insertLocation e.location
          (parseLocationString e.location).1 none] }
    ∧ (rollbackConn st.conn).committedEvents = st.conn.committedEvents
    ∧ (rollbackConn st.conn).committedLocations = st.conn.committedLocations
    ∧ (rollbackConn st.conn).pendingEvents = []
    ∧ (processEvent standups storeFail fromiso now st e).saved = st.saved
    ∧ ((e :: rest).foldl (processEvent standups storeFail fromiso now) st =
        rest.foldl (processEvent standups storeFail fromiso now)
          (processEvent standups storeFail fromiso now st e)) := by
  refine ⟨processEvent_create_fail standups storeFail fromiso now st hs hl hf,
    rfl, rfl, rfl, ?_, rfl⟩
  rw [processEvent_create_fail standups storeFail fromiso now st hs hl hf]

/-- Witness for C3's amended theorem at concrete inputs. -/
theorem C3_location_create_failure_witness :
    processEvent [(1, "a")] (fun n => n == "y") (fun t => .error (.valueError t))
      ⟨2025, 1, 1, 0, 0, 0, some 0⟩ (initialSaveState ⟨[], [], [], [], 0⟩)
      ⟨"a two", "2025-01-02", "y", false, "u2"⟩ =
      { initialSaveState ⟨[], [], [], [], 0⟩ with
        conn := rollbackConn (initialSaveState ⟨[], [], [], [], 0⟩).conn
        skippedLocation := 1
        unmatchedLocations := ["y"]
        trace := [.insertLocation "y" "y" none] } :=
  (C3_location_create_failure_skips [(1, "a")] (fun n => n == "y")
    (fun t => .error (.valueError t)) ⟨2025, 1, 1, 0, 0, 0, some 0⟩
    (initialSaveState ⟨[], [], [], [], 0⟩) ⟨"a two", "2025-01-02", "y", false, "u2"⟩
    [] 1 "a" (by rfl) (by rfl) (by decide)).1

/-- Counterexample to C3 as stated: with two events where the first is
inserted (still uncommitted) and the second's location creation fails, the
run reports one saved event yet commits none — the rollback triggered by
the failed creation erased the first event's already-produced persistence
effect, so earlier effects are not left unchanged; dropping the failing
event preserves the first event's row. -/
theorem C3_counterexample :
    (save_events_to_db [(1, "a")] (fun n => n == "y")
        (fun t => .error (.valueError t)) ⟨2025, 1, 1, 0, 0, 0, some 0⟩
        [⟨"a one", "2025-01-01", "v", false, "u1"⟩,
         ⟨"a two", "2025-01-02", "y", false, "u2"⟩]
        ⟨[], [], [⟨1, "v", none⟩], [], 2⟩).saved = 1
    ∧ (save_events_to_db [(1, "a")] (fun n => n == "y")
        (fun t => .error (.valueError t)) ⟨2025, 1, 1, 0, 0, 0, some 0⟩
        [⟨"a one", "2025-01-01", "v", false, "u1"⟩,
         ⟨"a two", "2025-01-02", "y", false, "u2"⟩]
        ⟨[], [], [⟨1, "v", none⟩], [], 2⟩).conn.committedEvents = []
    ∧ (save_events_to_db [(1, "a")] (fun n => n == "y")
        (fun t => .error (.valueError t)) ⟨2025, 1, 1, 0, 0, 0, some 0⟩
        [⟨"a one", "2025-01-01", "v", false, "u1"⟩]
        ⟨[], [], [⟨1, "v", none⟩], [], 2⟩).conn.committedEvents ≠ [] := by
  refine ⟨?_, ?_, ?_⟩ <;> decide

/-- C2 (amended): an insert that conflicts on the `(standup_id, date)`
uniqueness constraint is a silent no-op (`rowcount = 0`, counted as a
duplicate, never an error), and running the persistence step a second time
with the same event set saves zero additional events provided no
location-creation store error occurs and every event's date string parses
(the unparseable-date fallback stamps the persistence-time instant, which
changes between runs and defeats the conflict suppression). -/
theorem C2_idempotence_of_persistence (standups : List (Nat × String))
    (storeFail : String → Bool) (fromiso : String → Except PyErr PyDatetime)
    (now1 now2 : PyDatetime) (events : List Event) (conn0 : Conn)
    (hnf : ∀ n, storeFail n = false)
    (hp : ∀ e ∈ events, ∃ d, parse_date_body fromiso e.date = .ok d) :
    (save_events_to_db standups storeFail fromiso now2 events
      (save_events_to_db standups storeFail fromiso now1 events conn0).conn).saved = 0
    ∧ (∀ (c : Conn) (row : EventRow),
        eventKeyConflict c row.standup_id row.date = true →
        insertEventOnConflict c row = (c, false)) := by
  constructor
  · by_cases hemp : standups.isEmpty
    · simp [save_events_to_db, hemp, initialSaveState]
    · have h := saveFold_no_new_saves standups storeFail fromiso now2 hnf events
        (initialSaveState (commitConn ((events.foldl
          (processEvent standups storeFail fromiso now1)
          (initialSaveState conn0))).conn)) ?_
      · simp only [save_events_to_db, hemp, Bool.false_eq_true, if_false]
        exact h.1
      · intro e he sid nm hfind
        obtain ⟨row, hrow, h1, h2⟩ := saveFold_keys_present standups storeFail
          fromiso now1 hnf events (initialSaveState conn0) e he sid nm hfind
        refine ⟨row, ?_, h1, ?_⟩
        · rw [show (initialSaveState (commitConn ((events.foldl
              (processEvent standups storeFail fromiso now1)
              (initialSaveState conn0))).conn)).conn =
              commitConn ((events.foldl (processEvent standups storeFail fromiso now1)
                (initialSaveState conn0))).conn from rfl, visibleEvents_commitConn]
          exact hrow
        · rw [h2]
          exact parse_date_now_independent (hp e he) now1 now2
  · intro c row h
    simp [insertEventOnConflict, h]

/-- Witness for C2's amended theorem at concrete inputs: one event with a
parseable date, saved in the first run, saves nothing in the second run
even under a different current instant. -/
theorem C2_idempotence_witness :
    (save_events_to_db [(1, "a")] (fun _ => false)
        (fun t => .error (.valueError t)) ⟨2025, 1, 2, 0, 0, 0, some 0⟩
        [⟨"a night", "2025-01-01", "v", false, "u"⟩]
        (save_events_to_db [(1, "a")] (fun _ => false)
          (fun t => .error (.valueError t)) ⟨2025, 1, 1, 0, 0, 0, some 0⟩
          [⟨"a night", "2025-01-01", "v", false, "u"⟩]
          ⟨[], [], [⟨1, "v", none⟩], [], 2⟩).conn).saved = 0 :=
  (C2_idempotence_of_persistence [(1, "a")] (fun _ => false)
    (fun t => .error (.valueError t)) ⟨2025, 1, 1, 0, 0, 0, some 0⟩
    ⟨2025, 1, 2, 0, 0, 0, some 0⟩ [⟨"a night", "2025-01-01", "v", false, "u"⟩]
    ⟨[], [], [⟨1, "v", none⟩], [], 2⟩ (fun n => rfl)
    (fun e he => by
      rcases List.mem_cons.mp he with rfl | h
      · exact ⟨⟨2025, 1, 1, 0, 0, 0, some 0⟩, rfl⟩
      · simp at h)).1

/-- Counterexample to C2 as stated: an event whose date string is
unparseable is stamped with the run's current instant, so re-running the
persistence step at a later instant re-inserts it — the second run reports
one saved event, not zero. -/
theorem C2_counterexample :
    (save_events_to_db [(1, "a")] (fun _ => false)
        (fun t => .error (.valueError t)) ⟨2025, 1, 2, 0, 0, 0, some 0⟩
        [⟨"a night", "not a date", "v", false, "u"⟩]
        (save_events_to_db [(1, "a")] (fun _ => false)
          (fun t => .error (.valueError t)) ⟨2025, 1, 1, 0, 0, 0, some 0⟩
          [⟨"a night", "not a date", "v", false, "u"⟩]
          ⟨[], [], [⟨1, "v", none⟩], [], 2⟩).conn).saved = 1 := by
  decide

/-- C4: within a run, a new canonical location is successfully created at
most once per distinct location string `L` (at most one successful
`INSERT INTO location` with that triggering string in the statement trace);
the created `(id, name)` pair is appended to the in-memory locations list
and is what `find_matching_location` returns for `L` from then on; and any
later event in the same run carrying the same `L` (with a standup match)
resolves to exactly the created id through the match branch — no second
creation. -/
theorem C4_location_created_at_most_once (standups : List (Nat × String))
    (storeFail : String → Bool) (fromiso : String → Except PyErr PyDatetime)
    (now : PyDatetime) (events : List Event) (conn0 : Conn) :
    (∀ L, createCount L
      (save_events_to_db standups storeFail fromiso now events conn0) ≤ 1)
    ∧ (∀ L nm lid, StoreOp.insertLocation L nm (some lid) ∈
        (save_events_to_db standups storeFail fromiso now events conn0).trace →
        (lid, nm) ∈
          (save_events_to_db standups storeFail fromiso now events conn0).locations
        ∧ find_matching_location L
            (save_events_to_db standups storeFail fromiso now events conn0).locations =
          some (lid, nm))
    ∧ (∀ (pre more : List Event) (L nm : String) (lid : Nat),
        StoreOp.insertLocation L nm (some lid) ∈
          (pre.foldl (processEvent standups storeFail fromiso now)
            (initialSaveState conn0)).trace →
        find_matching_location L
          ((more.foldl (processEvent standups storeFail fromiso now)
            (pre.foldl (processEvent standups storeFail fromiso now)
              (initialSaveState conn0))).locations) = some (lid, nm)
        ∧ (∀ (e : Event) (sid : Nat) (snm : String), e.location = L →
            find_matching_standup e.title standups = some (sid, snm) →
            processEvent standups storeFail fromiso now
              (more.foldl (processEvent standups storeFail fromiso now)
                (pre.foldl (processEvent standups storeFail fromiso now)
                  (initialSaveState conn0))) e =
              persistMatchedEvent fromiso now sid lid e
                (more.foldl (processEvent standups storeFail fromiso now)
                  (pre.foldl (processEvent standups storeFail fromiso now)
                    (initialSaveState conn0))))) := by
  have hst0inv : LocCreationInv (initialSaveState conn0) := by
    intro L nm lid h
    simp [initialSaveState] at h
  have hst0cnt : ∀ L, createCount L (initialSaveState conn0) = 0 := by
    intro L
    simp [createCount, initialSaveState]
  have hlater : ∀ (pre more : List Event) (L nm : String) (lid : Nat),
      StoreOp.insertLocation L nm (some lid) ∈
        (pre.foldl (processEvent standups storeFail fromiso now)
          (initialSaveState conn0)).trace →
      find_matching_location L
        ((more.foldl (processEvent standups storeFail fromiso now)
          (pre.foldl (processEvent standups storeFail fromiso now)
            (initialSaveState conn0))).locations) = some (lid, nm) := by
    intro pre more L nm lid hmem
    have hmidinv := (saveFold_create_once standups storeFail fromiso now pre
      (initialSaveState conn0) hst0inv (fun L => by rw [hst0cnt L]; omega)).1
    have hmid := hmidinv L nm lid hmem
    obtain ⟨tl, htl⟩ := saveFold_locations_grow standups storeFail fromiso now more
      (pre.foldl (processEvent standups storeFail fromiso now)
        (initialSaveState conn0))
    rw [htl]
    exact find_matching_location_stable hmid tl
  refine ⟨?_, ?_, ?_⟩
  · intro L
    by_cases hemp : standups.isEmpty
    · simp [save_events_to_db, hemp, createCount, initialSaveState]
    · simp only [save_events_to_db, hemp, Bool.false_eq_true, if_false]
      have := (saveFold_create_once standups storeFail fromiso now events
        (initialSaveState conn0) hst0inv (fun L => by rw [hst0cnt L]; omega)).2 L
      simpa [createCount] using this
  · intro L nm lid hmem
    by_cases hemp : standups.isEmpty
    · simp only [save_events_to_db, hemp, if_true] at hmem
      simp [initialSaveState] at hmem
    · simp only [save_events_to_db, hemp, Bool.false_eq_true, if_false] at hmem ⊢
      have hinv := (saveFold_create_once standups storeFail fromiso now events
        (initialSaveState conn0) hst0inv (fun L => by rw [hst0cnt L]; omega)).1
      have hfind := hinv L nm lid hmem
      exact ⟨find_matching_location_mem hfind, hfind⟩
  · intro pre more L nm lid hmem
    refine ⟨hlater pre more L nm lid hmem, ?_⟩
    intro e sid snm hLe hs
    subst hLe
    exact processEvent_loc_match standups storeFail fromiso now _ hs
      (hlater pre more e.location nm lid hmem)

/-- Witness for C4 at concrete inputs: one event creates location
`"Teatro X"` (id 5) from the string `"Teatro X - Porto"`; the created pair
is in the in-memory list and is what the matcher returns for that string. -/
theorem C4_location_created_witness :
    (5, "Teatro X") ∈
      (save_events_to_db [(1, "a")] (fun _ => false)
        (fun t => .error (.valueError t)) ⟨2025, 1, 1, 0, 0, 0, some 0⟩
        [⟨"a x", "2025-01-01", "Teatro X - Porto", false, "u"⟩]
        ⟨[], [], [], [], 5⟩).locations
    ∧ find_matching_location "Teatro X - Porto"
        (save_events_to_db [(1, "a")] (fun _ => false)
          (fun t => .error (.valueError t)) ⟨2025, 1, 1, 0, 0, 0, some 0⟩
          [⟨"a x", "2025-01-01", "Teatro X - Porto", false, "u"⟩]
          ⟨[], [], [], [], 5⟩).locations = some (5, "Teatro X") :=
  (C4_location_created_at_most_once [(1, "a")] (fun _ => false)
    (fun t => .error (.valueError t)) ⟨2025, 1, 1, 0, 0, 0, some 0⟩
    [⟨"a x", "2025-01-01", "Teatro X - Porto", false, "u"⟩]
    ⟨[], [], [], [], 5⟩).2.1 "Teatro X - Porto" "Teatro X" 5 (by decide)

/-- C7: Date normalization never raises (the embedding is a total function
into `PyDatetime`): a source date string containing a time component
(`'T' in date_str`) is parsed as an ISO-8601 instant with offset via
`fromisoformat` after replacing `Z` by `+00:00`; a string without one is
parsed with `strptime("%Y-%m-%d")` and interpreted at UTC midnight
(midnight fields, offset set to UTC); and when either parse raises
`ValueError` the result is the current instant `now` instead of a
rejection. -/
theorem C7_date_normalization (fromiso : String → Except PyErr PyDatetime)
    (now : PyDatetime) (s : String) :
    (∀ dt, pyIn "T" s = true → fromiso (pyReplaceZ s) = .ok dt →
      parse_date_to_offset_datetime fromiso now s = dt)
    ∧ (∀ dt, pyIn "T" s = false → strptime_Ymd s = .ok dt →
      parse_date_to_offset_datetime fromiso now s = { dt with tzOffsetMinutes := some 0 }
        ∧ dt.hour = 0 ∧ dt.minute = 0 ∧ dt.second = 0)
    ∧ (∀ e, pyIn "T" s = true → fromiso (pyReplaceZ s) = .error e →
      parse_date_to_offset_datetime fromiso now s = now)
    ∧ (∀ e, pyIn "T" s = false → strptime_Ymd s = .error e →
      parse_date_to_offset_datetime fromiso now s = now) := by
  refine ⟨?_, ?_, ?_, ?_⟩
  · intro dt h1 h2
    simp [parse_date_to_offset_datetime, parse_date_body, h1, h2]
  · intro dt h1 h2
    obtain ⟨hh, hm, hs, -⟩ := strptime_Ymd_midnight_naive s dt h2
    refine ⟨?_, hh, hm, hs⟩
    simp [parse_date_to_offset_datetime, parse_date_body, h1, h2]
  · intro e h1 h2
    simp [parse_date_to_offset_datetime, parse_date_body, h1, h2]
  · intro e h1 h2
    simp [parse_date_to_offset_datetime, parse_date_body, h1, h2]

/-- Witness for C7 at concrete inputs: `"2025-03-04"` has no time component
and parses to UTC midnight; with a `fromisoformat` oracle that always
raises, `"not a dateT"` falls back to `now`. -/
theorem C7_date_normalization_witness :
    pyIn "T" "2025-03-04" = false
    ∧ strptime_Ymd "2025-03-04" = .ok ⟨2025, 3, 4, 0, 0, 0, none⟩
    ∧ parse_date_to_offset_datetime (fun t => .error (.valueError t))
        ⟨2030, 1, 1, 0, 0, 0, some 0⟩ "2025-03-04" =
        ⟨2025, 3, 4, 0, 0, 0, some 0⟩ := by
  refine ⟨by decide, by rfl, ?_⟩
  have h := (C7_date_normalization (fun t => .error (.valueError t))
      ⟨2030, 1, 1, 0, 0, 0, some 0⟩ "2025-03-04").2.1
      ⟨2025, 3, 4, 0, 0, 0, none⟩ (by decide) (by rfl)
  exact h.1

/-- C10: if inspecting a fetched page for rate-limiting signals itself
raises (reading the content, or reading the response status after no
indicator phrase matched), `check_for_rate_limiting` returns `false` and
the page is treated as not rate-limited. -/
theorem C10_rate_limit_check_swallows_exceptions (p : RLPage) (e : PyErr) :
    (check_for_rate_limiting_body p = .error e → check_for_rate_limiting p = false)
    ∧ (p.content = .error e → check_for_rate_limiting p = false)
    ∧ (∀ c, p.content = .ok c →
        rate_limit_indicators.any (fun ind => pyIn ind (pyLower c)) = false →
        p.responseStatus = .error e → check_for_rate_limiting p = false) := by
  refine ⟨?_, ?_, ?_⟩
  · intro h
    simp [check_for_rate_limiting, h]
  · intro h
    simp [check_for_rate_limiting, check_for_rate_limiting_body, h]
  · intro c h1 h2 h3
    simp [check_for_rate_limiting, check_for_rate_limiting_body, h1, h2, h3]

/-- Witness for C10 at a concrete page whose content read raises. -/
theorem C10_rate_limit_check_witness :
    check_for_rate_limiting ⟨.error (.valueError "no content"), .ok none⟩ = false :=
  (C10_rate_limit_check_swallows_exceptions
      ⟨.error (.valueError "no content"), .ok none⟩ (.valueError "no content")).2.1 rfl

end Ticketline
